import Mathlib

/-!
Verification development for the `sharify-be` room coordinator.

Shallow embedding of the Rust sources in `src/`:
* `src/sharify/role.rs`            — roles, permissions, the role table;
* `src/sharify/room_manager.rs`    — the room registry and its mutations;
* `src/sharify/spotify.rs`         — the sliding-window rate limiter;
* `src/sharify/utils.rs`           — the user-email/identifier codec;
* `src/sharify/websocket/commands.rs` — command authorization and dispatch;
* `src/sharify/websocket/instance.rs` — the per-room inactivity check;
* `src/routes.rs`                  — the HTTP command endpoint.

Conventions: `Uuid` values are modelled as `Nat` drawn from a generator
counter threaded through the registry (`Uuid::now_v7` produces fresh,
pairwise-distinct values); `Instant` values are `Nat` timestamps with the
unit noted at each use site; Rust `Result` is `Except`; `VecDeque` front/back
are list head/append.  Randomness (the room password) is taken as an
explicit argument.  Repository code that the current sources reference but
do not define (the tree also carries an older draft `room.rs`) is modelled
from the spec and marked as such in its doc comment.
-/

/-! ## Roles (src/sharify/role.rs) -/

inductive RoleError
  | NameAlreadyExists
deriving Repr, DecidableEq

structure RolePermission where
  can_use_controls : Bool
  can_manage_users : Bool
  can_add_song : Bool
  can_add_moderator : Bool
  can_manage_room : Bool
deriving Repr, DecidableEq

structure Role where
  id : Nat
  name : String
  permissions : RolePermission
deriving Repr, DecidableEq

instance : Inhabited Role :=
  ⟨⟨0, "", ⟨false, false, false, false, false⟩⟩⟩

/-- `impl From<&Role> for u8`: the permission weight used to order roles. -/
def Role.weight (role : Role) : Nat :=
  (cond role.permissions.can_add_song 1 0) * 1
    + (cond role.permissions.can_use_controls 1 0) * 2
    + (cond role.permissions.can_manage_users 1 0) * 3
    + (cond role.permissions.can_add_moderator 1 0) * 4
    + (cond role.permissions.can_manage_room 1 0) * 5

structure RoleManager where
  roles : List Role
deriving Repr, DecidableEq

def RoleManager.get_roles (rm : RoleManager) : List Role :=
  rm.roles

def RoleManager.get_role_by_id (rm : RoleManager) (id : Nat) : Option Role :=
  rm.roles.find? (fun role => role.id == id)

def RoleManager.get_role_by_name (rm : RoleManager) (name : String) : Option Role :=
  rm.roles.find? (fun role => role.name == name)

/-- Stable insertion step: puts `a` before the first entry of greater-or-equal
weight. -/
def insertByWeight (a : Role) : List Role → List Role
  | [] => [a]
  | b :: rest =>
    if a.weight ≤ b.weight then a :: b :: rest else b :: insertByWeight a rest

/-- Stable ascending sort by weight (insertion sort — pointwise equal to the
stable `Vec::sort()` by the `Ord` instance, which compares weights). -/
def sortByWeight : List Role → List Role
  | [] => []
  | a :: rest => insertByWeight a (sortByWeight rest)

/-- `RoleManager::sort`: stable ascending sort by `Ord` (the weight), then reverse. -/
def RoleManager.sortRoles (rm : RoleManager) : RoleManager :=
  ⟨(sortByWeight rm.roles).reverse⟩

/-- `RoleManager::add_role`; the freshly generated `Uuid::now_v7` is the
`fresh` argument. -/
def RoleManager.add_role (rm : RoleManager) (fresh : Nat) (name : String)
    (permissions : RolePermission) : RoleManager × Except RoleError Unit :=
  if rm.roles.any (fun role => role.name == name) then
    (rm, .error .NameAlreadyExists)
  else
    (RoleManager.sortRoles ⟨rm.roles ++ [⟨fresh, name, permissions⟩]⟩, .ok ())

/-- `RoleManager::remove_role`, translated verbatim: the body is
`self.0.retain(|role| role.id == id)`, which KEEPS the entries whose
id equals the argument. -/
def RoleManager.remove_role (rm : RoleManager) (id : Nat) : RoleManager :=
  ⟨rm.roles.filter (fun role => role.id == id)⟩

def editFirstRole (id : Nat) (name : String) (permissions : RolePermission) :
    List Role → List Role
  | [] => []
  | role :: rest =>
    if role.id == id then { role with name := name, permissions := permissions } :: rest
    else role :: editFirstRole id name permissions rest

/-- `RoleManager::edit_role`: edits the first entry with the given id. -/
def RoleManager.edit_role (rm : RoleManager) (id : Nat) (name : String)
    (permissions : RolePermission) : RoleManager :=
  ⟨editFirstRole id name permissions rm.roles⟩

/-- Modelled from the spec: `RoleManager::delete_role` is called by the
DeleteRole command (src/sharify/websocket/commands.rs) but is absent from the
sources, which only define `remove_role`; the spec's role-table operation
`remove(id)` removes the entry with the given id and keeps the rest. -/
def RoleManager.delete_role (rm : RoleManager) (id : Nat) : RoleManager :=
  ⟨rm.roles.filter (fun role => role.id != id)⟩

def Role.new_guest (fresh : Nat) : Role :=
  ⟨fresh, "Guest", ⟨false, false, false, false, false⟩⟩

def Role.new_vip (fresh : Nat) : Role :=
  ⟨fresh, "VIP", ⟨false, false, true, false, false⟩⟩

def Role.new_moderator (fresh : Nat) : Role :=
  ⟨fresh, "Moderator", ⟨true, true, true, false, false⟩⟩

def Role.new_admin (fresh : Nat) : Role :=
  ⟨fresh, "Admin", ⟨true, true, true, true, false⟩⟩

def Role.new_owner (fresh : Nat) : Role :=
  ⟨fresh, "Owner", ⟨true, true, true, true, true⟩⟩

/-- `impl Default for RoleManager`: Owner, Admin, Moderator, VIP, Guest, with
five fresh ids drawn from `base` upward. -/
def RoleManager.defaultTable (base : Nat) : RoleManager :=
  ⟨[Role.new_owner base, Role.new_admin (base + 1), Role.new_moderator (base + 2),
    Role.new_vip (base + 3), Role.new_guest (base + 4)]⟩

/-! ## Room data model (src/sharify/room_manager.rs; the `RoomError` enum and
the room-level constants are referenced by the current sources but defined in
a file the tree only carries as an older draft) -/

inductive RoomError
  | RoomCreationFail
  | RoomNotFound
  | RoomUserNotFound
  | RoleNotFound
  | Unauthorized
  | TrackNotFound
  | RoomFull
  | UserBanned
  | UserIDExists
  | Unreachable
deriving Repr, DecidableEq

inductive LogType
  | Other
  | Kick
  | Ban
deriving Repr, DecidableEq

structure Log where
  type : LogType
  details : String
deriving Repr, DecidableEq

structure RoomUser where
  id : String
  username : String
  role_id : Nat
  is_connected : Bool
deriving Repr, DecidableEq

structure RoomTrack where
  track_id : String
  user_id : String
  track_name : String
  track_duration : Nat
deriving Repr, DecidableEq

/-- Modelled from the spec: `MAX_USERS = 15` (room capacity). -/
def MAX_USERS : Nat := 15

/-- Modelled from the spec: `MAX_TRACKS_QUEUE_LEN = 50` (queue capacity). -/
def MAX_TRACKS_QUEUE_LEN : Nat := 50

/-- Modelled from the spec: `MAX_LOGS_LEN = 25` (log ring capacity). -/
def MAX_LOGS_LEN : Nat := 25

/-- Modelled from the spec: `INACTIVE_ROOM_MINS = 5`, a count of MINUTES
("inactivity window 5 min"). -/
def INACTIVE_ROOM_MINS : Nat := 5

/-- The `Room` aggregate.  `inactive_for` is the `RoomMetadata` field of the
same name (an `Option<Instant>` timestamp, here in seconds); the provider
handle and channel plumbing of `RoomMetadata` carry no registry state and are
omitted. -/
structure Room where
  id : Nat
  name : String
  password : String
  users : List RoomUser
  banned_users : List String
  role_manager : RoleManager
  tracks_queue : List RoomTrack
  max_users : Nat
  logs : List Log
  inactive_for : Option Nat
deriving Repr, DecidableEq

/-- The registry.  `uuid_gen` embeds the `Uuid::now_v7` source: each draw is
the current value, after which the counter advances, so draws are pairwise
distinct. -/
structure RoomManager where
  active_rooms : List (Nat × Room)
  user_ids : List String
  uuid_gen : Nat
deriving Repr, DecidableEq

/-- `HashMap::get`. -/
def findRoom (rooms : List (Nat × Room)) (k : Nat) : Option Room :=
  (rooms.find? (fun p => p.1 == k)).map Prod.snd

/-- Rewrites the value stored at key `k` (the effect of mutating through
`HashMap::get_mut`). -/
def updateRoom (rooms : List (Nat × Room)) (k : Nat) (r : Room) :
    List (Nat × Room) :=
  rooms.map (fun p => if p.1 == k then (k, r) else p)

/-- `HashMap::insert`: replaces the existing entry or appends a new one. -/
def insertRoom (rooms : List (Nat × Room)) (k : Nat) (r : Room) :
    List (Nat × Room) :=
  if (rooms.find? (fun p => p.1 == k)).isSome then updateRoom rooms k r
  else rooms ++ [(k, r)]

/-- `HashMap::remove`. -/
def eraseRoom (rooms : List (Nat × Room)) (k : Nat) : List (Nat × Room) :=
  rooms.filter (fun p => p.1 != k)

/-- `HashSet::insert`. -/
def insertUserId (ids : List String) (id : String) : List String :=
  if ids.contains id then ids else ids ++ [id]

/-- `RoomManager::user_id_exists`. -/
def RoomManager.user_id_exists (m : RoomManager) (user_id : String) : Bool :=
  m.user_ids.contains user_id

/-- `RoomManager::get_room` (the log-on-miss side effect carries no state). -/
def RoomManager.get_room (m : RoomManager) (room_id : Nat) : Option Room :=
  findRoom m.active_rooms room_id

/-- The `Room` literal that `create_room` inserts: fresh room id, the default
role table seeded from the next five fresh ids, the creator as sole user
holding the table's first (Owner) role id. -/
def createdRoom (m : RoomManager) (password user_id username name : String) : Room :=
  { id := m.uuid_gen
    name := name
    password := password
    users := [⟨user_id, username,
      (RoleManager.defaultTable (m.uuid_gen + 1)).get_roles.headI.id, false⟩]
    banned_users := []
    role_manager := RoleManager.defaultTable (m.uuid_gen + 1)
    tracks_queue := []
    max_users := MAX_USERS
    logs := []
    inactive_for := none }

/-- `RoomManager::create_room`.  The random 16-char password is the
`password` argument; credentials only feed the omitted provider handle. -/
def RoomManager.create_room (m : RoomManager) (password : String)
    (user_id username name : String) : Except RoomError (Room × RoomManager) :=
  if m.user_id_exists user_id then .error .UserIDExists
  else
    match findRoom (insertRoom m.active_rooms m.uuid_gen
        (createdRoom m password user_id username name)) m.uuid_gen with
    | none => .error .RoomCreationFail
    | some room =>
      .ok (room,
        { active_rooms := insertRoom m.active_rooms m.uuid_gen
            (createdRoom m password user_id username name)
          user_ids := room.users.foldl (fun ids user => insertUserId ids user.id) m.user_ids
          uuid_gen := m.uuid_gen + 6 })

/-- `RoomManager::append_log`: evict the oldest entry at capacity, then push. -/
def RoomManager.append_log (m : RoomManager) (room_id : Nat) (log : Log) :
    Except RoomError RoomManager :=
  match findRoom m.active_rooms room_id with
  | none => .error .RoomNotFound
  | some room =>
    let logs := if MAX_LOGS_LEN ≤ room.logs.length then room.logs.tail else room.logs
    .ok { m with active_rooms := updateRoom m.active_rooms room_id { room with logs := logs ++ [log] } }

/-- `RoomManager::add_track_to_queue`: pushes unconditionally once the room
and the submitting user are found. -/
def RoomManager.add_track_to_queue (m : RoomManager) (id : Nat)
    (user_id track_id track_name : String) (track_duration : Nat) :
    Except RoomError RoomManager :=
  match findRoom m.active_rooms id with
  | none => .error .RoomNotFound
  | some room =>
    match room.users.find? (fun c => c.id == user_id) with
    | none => .error .RoomUserNotFound
    | some _ =>
      let room := { room with
        tracks_queue := room.tracks_queue ++ [⟨track_id, user_id, track_name, track_duration⟩] }
      .ok { m with active_rooms := updateRoom m.active_rooms id room }

/-- `RoomManager::remove_track_from_queue`: pops the front entry exactly when
it carries the supplied track id; always `Ok` once the room is found. -/
def RoomManager.remove_track_from_queue (m : RoomManager) (id : Nat)
    (track_id : String) : Except RoomError RoomManager :=
  match findRoom m.active_rooms id with
  | none => .error .RoomNotFound
  | some room =>
    let room :=
      if room.tracks_queue.head?.any (fun t => t.track_id == track_id) then
        { room with tracks_queue := room.tracks_queue.tail }
      else room
    .ok { m with active_rooms := updateRoom m.active_rooms id room }

/-- `RoomManager::kick_user`. -/
def RoomManager.kick_user (m : RoomManager) (room_id : Nat)
    (author_id user_id reason : String) : Except RoomError RoomManager :=
  match findRoom m.active_rooms room_id with
  | none => .error .RoomNotFound
  | some room =>
    match room.users.find? (fun c => c.id == author_id) with
    | none => .error .Unreachable
    | some author =>
      match room.users.find? (fun c => c.id == user_id) with
      | none => .error .Unreachable
      | some user =>
        let room := { room with users := room.users.filter (fun c => c.id != user_id) }
        let m := { m with
          active_rooms := updateRoom m.active_rooms room_id room
          user_ids := m.user_ids.filter (fun i => i != user.id) }
        m.append_log room_id
          ⟨.Kick, "User " ++ author.username ++ " kicked " ++ user.username
            ++ " from the room for: " ++ reason⟩

/-- `RoomManager::ban_user`. -/
def RoomManager.ban_user (m : RoomManager) (room_id : Nat)
    (author_id user_id reason : String) : Except RoomError RoomManager :=
  match findRoom m.active_rooms room_id with
  | none => .error .RoomNotFound
  | some room =>
    match room.users.find? (fun c => c.id == author_id) with
    | none => .error .Unreachable
    | some author =>
      match room.users.find? (fun c => c.id == user_id) with
      | none => .error .Unreachable
      | some user =>
        let room := { room with
          users := room.users.filter (fun c => c.id != user_id)
          banned_users := room.banned_users ++ [user_id] }
        let m := { m with
          active_rooms := updateRoom m.active_rooms room_id room
          user_ids := m.user_ids.filter (fun i => i != user.id) }
        m.append_log room_id
          ⟨.Ban, "User " ++ author.username ++ " banned " ++ user.username
            ++ " from the room for: " ++ reason⟩

/-- The room with the joining participant appended (`connected = false`). -/
def joinedRoom (room : Room) (user_id username : String) (role_id : Nat) : Room :=
  { room with users := room.users ++ [⟨user_id, username, role_id, false⟩] }

/-- The room after the empty-table fallback of `join_room`: `add_role` is run
with the name and permissions of a fresh Guest value, drawing a SECOND fresh
id for the table entry. -/
def guestedRoom (room : Room) (gen : Nat) : Room :=
  { room with role_manager :=
      (room.role_manager.add_role (gen + 1) (Role.new_guest gen).name
        (Role.new_guest gen).permissions).1 }

/-- `RoomManager::join_room`.  When the role table is empty a fresh Guest role
is built (drawing one id), a role with the SAME name and permissions but a
SECOND fresh id is pushed through `add_role`, and the participant is assigned
the FIRST id. -/
def RoomManager.join_room (m : RoomManager) (room_id : Nat)
    (username user_id : String) : Except RoomError (Room × RoomManager) :=
  if m.user_id_exists user_id then .error .UserIDExists
  else
    match findRoom m.active_rooms room_id with
    | none => .error .RoomNotFound
    | some room =>
      if room.banned_users.contains user_id then .error .UserBanned
      else if room.users.length == room.max_users then .error .RoomFull
      else
        match room.role_manager.get_roles.getLast? with
        | some role =>
          .ok (joinedRoom room user_id username role.id,
            { active_rooms := updateRoom m.active_rooms room_id
                (joinedRoom room user_id username role.id)
              user_ids := insertUserId m.user_ids user_id
              uuid_gen := m.uuid_gen })
        | none =>
          .ok (joinedRoom (guestedRoom room m.uuid_gen) user_id username
              (Role.new_guest m.uuid_gen).id,
            { active_rooms := updateRoom m.active_rooms room_id
                (joinedRoom (guestedRoom room m.uuid_gen) user_id username
                  (Role.new_guest m.uuid_gen).id)
              user_ids := insertUserId m.user_ids user_id
              uuid_gen := m.uuid_gen + 2 })

/-- `RoomManager::delete_room` (a `none` actor is the reaper-initiated path). -/
def RoomManager.delete_room (m : RoomManager) (room_id : Nat)
    (actor : Option String) : Except RoomError RoomManager :=
  match findRoom m.active_rooms room_id with
  | none => .error .RoomNotFound
  | some room =>
    let check : Except RoomError Unit :=
      match actor with
      | none => .ok ()
      | some user_id =>
        match room.users.find? (fun user => user.id == user_id) with
        | none => .error .RoomUserNotFound
        | some user =>
          match room.role_manager.get_role_by_id user.role_id with
          | none => .error .RoleNotFound
          | some role =>
            if role.permissions.can_manage_room then .ok () else .error .Unauthorized
    match check with
    | .error e => .error e
    | .ok _ =>
      .ok { m with
        user_ids := m.user_ids.filter (fun i => !(room.users.any (fun u => u.id == i)))
        active_rooms := eraseRoom m.active_rooms room_id }

/-- `RoomManager::is_user_an_owner_and_alone`. -/
def RoomManager.is_user_an_owner_and_alone (m : RoomManager) (room_id : Nat)
    (user_id : String) : Except RoomError Bool :=
  match findRoom m.active_rooms room_id with
  | none => .error .RoomNotFound
  | some room =>
    match room.users.find? (fun c => c.id == user_id) with
    | none => .error .RoomUserNotFound
    | some user =>
      match room.role_manager.get_role_by_id user.role_id with
      | none => .error .RoleNotFound
      | some role =>
        .ok (role.permissions.can_manage_room &&
          decide ((room.users.filter (fun c =>
            c.role_id == role.id ||
              (room.role_manager.get_role_by_id c.role_id).any
                (fun r => r.permissions.can_manage_room))).length ≤ 1))

/-- `RoomManager::leave_room`. -/
def RoomManager.leave_room (m : RoomManager) (room_id : Nat) (user_id : String) :
    Except RoomError RoomManager :=
  match m.is_user_an_owner_and_alone room_id user_id with
  | .error e => .error e
  | .ok true => m.delete_room room_id (some user_id)
  | .ok false =>
    match findRoom m.active_rooms room_id with
    | none => .error .RoomNotFound
    | some room =>
      match room.users.find? (fun c => c.id == user_id) with
      | none => .error .RoomUserNotFound
      | some user =>
        .ok { m with
          active_rooms := updateRoom m.active_rooms room_id
            { room with users := room.users.filter (fun c => c.id != user_id) }
          user_ids := m.user_ids.filter (fun i => i != user.id) }

/-! ## Inactivity check (src/sharify/websocket/instance.rs,
`init_room_activity_check_loop`, one tick of the loop body).  Timestamps are
in seconds: `inactive.elapsed().as_secs()` becomes `now - inactive`.  The
returned flag records whether the loop breaks because the room was reaped
(`true` exactly on the delete branch). -/

def activity_check_tick (m : RoomManager) (room_id : Nat) (now : Nat) :
    RoomManager × Bool :=
  match findRoom m.active_rooms room_id with
  | none => (m, false)
  | some room =>
    if (room.users.filter (fun u => u.is_connected)).length == 0 then
      if room.inactive_for.any (fun inactive => INACTIVE_ROOM_MINS ≤ now - inactive) then
        match m.delete_room room_id none with
        | .ok m => (m, true)
        | .error _ => (m, true)
      else
        ({ m with active_rooms :=
            updateRoom m.active_rooms room_id { room with inactive_for := some now } }, false)
    else
      ({ m with active_rooms :=
          updateRoom m.active_rooms room_id { room with inactive_for := none } }, false)

/-! ## Rate limiter (src/sharify/spotify.rs).  Time is in milliseconds so that
the `Duration` comparison (sub-second precision) and the `as_secs()`
truncation in the error payload are both representable.  The `AtomicU8`
counter wraps at 256. -/

def RATE_LIMIT_REQUEST_WINDOW_MS : Nat := 30000

def REQUEST_COUNT_PER_WINDOW : Nat := 10

inductive SpotifyError
  | Generic (msg : String)
  | RateLimited (secs : Nat)
deriving Repr, DecidableEq

structure RateLimiter where
  current_window : Nat
  request_count_on_window : Nat
deriving Repr, DecidableEq

/-- `RateLimiter::default()`: window starts now, counter starts at 1. -/
def RateLimiter.defaultAt (now : Nat) : RateLimiter :=
  ⟨now, 1⟩

/-- `RateLimiter::increment`.  `fetch_add` returns the previous counter; the
comparison is on the incremented value, and the error payload is
`30 - elapsed.as_secs()`. -/
def RateLimiter.increment (rl : RateLimiter) (now : Nat) :
    RateLimiter × Except SpotifyError Unit :=
  let elapsed_since_window := now - rl.current_window
  if RATE_LIMIT_REQUEST_WINDOW_MS < elapsed_since_window then
    ({ current_window := now, request_count_on_window := 1 }, .ok ())
  else
    let prev := rl.request_count_on_window
    let rl := { rl with request_count_on_window := (prev + 1) % 256 }
    if REQUEST_COUNT_PER_WINDOW ≤ (prev + 1) % 256 then
      (rl, .error (.RateLimited
        (RATE_LIMIT_REQUEST_WINDOW_MS / 1000 - elapsed_since_window / 1000)))
    else
      (rl, .ok ())

/-- Runs `increment` once per timestamp in the list, recording each result. -/
def RateLimiter.incrementTimes (rl : RateLimiter) :
    List Nat → RateLimiter × List (Except SpotifyError Unit)
  | [] => (rl, [])
  | t :: ts =>
    (((rl.increment t).1.incrementTimes ts).1,
      (rl.increment t).2 :: ((rl.increment t).1.incrementTimes ts).2)

/-! ## Identifier codec (src/sharify/utils.rs).  Strings are `List Char`
(the codec's inputs are ASCII, where Rust byte indexing and char indexing
agree). -/

def MIN_EMAIL_CHAR : Char := '-'

def MAX_EMAIL_CHAR : Char := 'z'

/-- `get_authorized_bytes()`: `'0'` prepended to the HALF-OPEN char range
`MIN_EMAIL_CHAR..MAX_EMAIL_CHAR` (so `'z'` itself is not authorized). -/
def authorizedByte (c : Char) : Bool :=
  c == '0' || (MIN_EMAIL_CHAR ≤ c && c < MAX_EMAIL_CHAR)

/-- `str::trim` (agrees with Rust on the ASCII inputs considered here). -/
def trimChars (s : List Char) : List Char :=
  ((s.dropWhile Char.isWhitespace).reverse.dropWhile Char.isWhitespace).reverse

/-- The pairs `(byte_one, byte_two)` consumed per loop iteration of
`encode_user_email`: even indices pair with their successor; an odd-length
tail pairs with `'0'` (`split.next().unwrap_or('0')`). -/
def chunkPairs : List Char → List (Char × Char)
  | [] => []
  | [a] => [(a, '0')]
  | a :: b :: rest => (a, b) :: chunkPairs rest

/-- For an even-length non-empty input, the loop also runs at the final odd
index (`i == email.len() - 1` is not skipped) with the iterator exhausted,
producing an extra `('0', '0')` pair. -/
def rustPairs (s : List Char) : List (Char × Char) :=
  chunkPairs s ++ (if s.length % 2 == 0 && !s.isEmpty then [('0', '0')] else [])

def toHexDigit (n : Nat) : Char :=
  if n < 10 then Char.ofNat ('0'.toNat + n) else Char.ofNat ('A'.toNat + (n - 10))

/-- `format!("{:02X}", c as u8)`. -/
def hexByte (c : Char) : List Char :=
  [toHexDigit (c.toNat % 256 / 16), toHexDigit (c.toNat % 256 % 16)]

/-- One pushed `hex_values` entry: `format!("{:02X}{:02X}", b1, b2)`. -/
def hexChunk (p : Char × Char) : List Char :=
  hexByte p.1 ++ hexByte p.2

/-- The growth loop `for i in 0.. { push(hex_values[i % hex_values.len()]) }`
reads the growing vector, which extends it periodically; appended entry `k`
is `hv[k % hv.length]`. -/
def padChunks (hv : List (List Char)) (uuid_len : Nat) : List (List Char) :=
  hv ++ (List.range (uuid_len - hv.length)).map (fun k => hv.getD (k % hv.length) [])

/-- `Vec::join(":")`. -/
def joinColon : List (List Char) → List Char
  | [] => []
  | [c] => c
  | c :: cs => c ++ ':' :: joinColon cs

/-- The `hex_values` vector of `encode_user_email`: one four-hex-digit entry
per consumed pair whose two bytes are both authorized. -/
def hexValues (email : List Char) : List (List Char) :=
  (rustPairs email).filterMap (fun p =>
    if authorizedByte p.1 && authorizedByte p.2 then some (hexChunk p) else none)

/-- `encode_user_email`. -/
def encode_user_email (email : List Char) (uuid_len : Nat) : List Char :=
  if trimChars email = [] then []
  else if (hexValues email).isEmpty then []
  else joinColon (padChunks (hexValues email) uuid_len)

/-- `str::split(':')` (an empty input yields one empty piece, as in Rust). -/
def splitColon : List Char → List (List Char)
  | [] => [[]]
  | c :: rest =>
    if c = ':' then [] :: splitColon rest
    else
      match splitColon rest with
      | g :: gs => (c :: g) :: gs
      | [] => [[c]]

def parseHexDigit (c : Char) : Option Nat :=
  if '0' ≤ c && c ≤ '9' then some (c.toNat - '0'.toNat)
  else if 'A' ≤ c && c ≤ 'F' then some (c.toNat - 'A'.toNat + 10)
  else if 'a' ≤ c && c ≤ 'f' then some (c.toNat - 'a'.toNat + 10)
  else none

/-- One chunk of `decode_user_email`: parse `s[0..=1]` and `s[2..=3]` as hex
bytes and push both as chars.  A chunk shorter than four chars or with an
invalid digit makes the Rust code panic (slicing / `unwrap`), modelled as
`none`; chars past index 3 are ignored, as in the source. -/
def decodeChunk : List Char → Option (Char × Char)
  | c0 :: c1 :: c2 :: c3 :: _ => do
    let h0 ← parseHexDigit c0
    let h1 ← parseHexDigit c1
    let h2 ← parseHexDigit c2
    let h3 ← parseHexDigit c3
    pure (Char.ofNat (16 * h0 + h1), Char.ofNat (16 * h2 + h3))
  | _ => none

/-- `decode_user_email` (`none` models the panicking paths). -/
def decode_user_email (user_id : List Char) : Option (List Char) := do
  let pairs ← (splitColon user_id).mapM decodeChunk
  pure (pairs.flatMap (fun p => [p.1, p.2]))

/-! ## Command dispatcher (src/sharify/websocket/commands.rs).  A decoded
`command::Type`; the 16-byte uuid fields arrive as `Option Nat`, the result
of `Uuid::from_slice(&bytes[..16])`.  The provider's network answer to the
Spotify-backed arms is an explicit input (`provider`), since it is external
to the program. -/

inductive CmdType
  | GetRoom
  | Search (query : String)
  | AddToQueue (track_id : String)
  | SetVolume (percentage : Nat)
  | PlayResume
  | Pause
  | SkipNext
  | SkipPrevious
  | SeekToPos (pos : Nat)
  | Kick (user_id reason : String)
  | Ban (user_id reason : String)
  | LeaveRoom
  | CreateRole (name : String) (permissions : Option RolePermission)
  | RenameRole (role_id : Option Nat) (name : String)
  | DeleteRole (role_id : Option Nat)
deriving Repr, DecidableEq

inductive CmdResponse
  | RoomErr (e : RoomError)
  | RoleErr (e : RoleError)
  | SpotifyErr (e : SpotifyError)
  | GenericError (msg : String)
  | RoomData (room : Room)
  | SpotifySearchResult (tracks : List String)
deriving Repr, DecidableEq

inductive StateImpact
  | Nothing
  | Room
  | Both (flags : Nat)
deriving Repr, DecidableEq

def SPOTIFY_FETCH_PLAYBACK : Nat := 1

def SPOTIFY_FETCH_TRACKS_Q : Nat := 2

/-- `Command::has_permission_to`. -/
def Command.has_permission_to (m : RoomManager) (room_id : Nat)
    (user_id : String) (cmd_type : CmdType) : Bool :=
  match m.get_room room_id with
  | none => false
  | some room =>
    match room.users.find? (fun user => user.id == user_id) with
    | none => false
    | some user =>
      match room.role_manager.get_role_by_id user.role_id with
      | none => false
      | some role =>
        let renameCheck : Bool :=
          match cmd_type with
          | .RenameRole role_id _ =>
            match role_id with
            | none => false
            | some rid =>
              match room.role_manager.get_role_by_id rid with
              | none => false
              | some target_role => !(role.weight ≤ target_role.weight)
          | _ => true
        renameCheck &&
          match cmd_type with
          | .GetRoom | .LeaveRoom => true
          | .Search _ | .AddToQueue _ => role.permissions.can_add_song
          | .SetVolume _ | .PlayResume | .Pause | .SkipNext | .SkipPrevious
          | .SeekToPos _ => role.permissions.can_use_controls
          | .Kick _ _ | .Ban _ _ => role.permissions.can_manage_users
          | .DeleteRole _ | .CreateRole _ _ | .RenameRole _ _ =>
            role.permissions.can_manage_users && role.permissions.can_add_moderator

/-- The `cmd_impact` classification computed inside `Command::process`. -/
def Command.impactOf (cmd_type : CmdType) : StateImpact :=
  match cmd_type with
  | .GetRoom | .Search _ => .Nothing
  | .DeleteRole _ | .CreateRole _ _ | .RenameRole _ _ | .LeaveRoom
  | .Kick _ _ | .Ban _ _ => .Room
  | .AddToQueue _ => .Both SPOTIFY_FETCH_TRACKS_Q
  | .SetVolume _ | .PlayResume | .Pause | .SeekToPos _ => .Both SPOTIFY_FETCH_PLAYBACK
  | .SkipNext | .SkipPrevious => .Both (SPOTIFY_FETCH_TRACKS_Q ||| SPOTIFY_FETCH_PLAYBACK)

/-- `Command::process`.  Returns the dispatcher result, the `StateImpact`,
and the registry after the command (unchanged on the unauthorized path and
for the provider-backed arms, which mutate no registry state). -/
def Command.process (m : RoomManager) (room_id : Nat) (user_id : String)
    (provider : Except SpotifyError (List String)) (cmd_type : CmdType) :
    Except CmdResponse (Option CmdResponse) × StateImpact × RoomManager :=
  if !Command.has_permission_to m room_id user_id cmd_type then
    (.error (.RoomErr .Unauthorized), .Nothing, m)
  else
    let cmd_impact := Command.impactOf cmd_type
    match cmd_type with
    | .GetRoom =>
      match m.get_room room_id with
      | none => (.error (.RoomErr .RoomNotFound), cmd_impact, m)
      | some room => (.ok (some (.RoomData room)), cmd_impact, m)
    | .Search _ =>
      match m.get_room room_id with
      | none => (.error (.RoomErr .RoomNotFound), cmd_impact, m)
      | some _ =>
        match provider with
        | .error e => (.error (.SpotifyErr e), cmd_impact, m)
        | .ok tracks => (.ok (some (.SpotifySearchResult tracks)), cmd_impact, m)
    | .AddToQueue _ | .SetVolume _ | .PlayResume | .Pause | .SkipNext
    | .SkipPrevious | .SeekToPos _ =>
      match m.get_room room_id with
      | none => (.error (.RoomErr .RoomNotFound), cmd_impact, m)
      | some _ =>
        match provider with
        | .error e => (.error (.SpotifyErr e), cmd_impact, m)
        | .ok _ => (.ok none, cmd_impact, m)
    | .Kick target reason =>
      match m.kick_user room_id user_id target reason with
      | .error e => (.error (.RoomErr e), cmd_impact, m)
      | .ok m => (.ok none, cmd_impact, m)
    | .Ban target reason =>
      match m.ban_user room_id user_id target reason with
      | .error e => (.error (.RoomErr e), cmd_impact, m)
      | .ok m => (.ok none, cmd_impact, m)
    | .LeaveRoom =>
      match m.leave_room room_id user_id with
      | .error e => (.error (.RoomErr e), cmd_impact, m)
      | .ok m => (.ok none, cmd_impact, m)
    | .CreateRole name permissions =>
      match m.get_room room_id with
      | none => (.error (.RoomErr .RoomNotFound), cmd_impact, m)
      | some room =>
        match permissions with
        | none => (.error (.GenericError "Permissions missing from request"), cmd_impact, m)
        | some perms =>
          match room.role_manager.add_role m.uuid_gen name perms with
          | (_, .error e) => (.error (.RoleErr e), cmd_impact, m)
          | (rm, .ok _) =>
            (.ok none, cmd_impact,
              { m with
                active_rooms := updateRoom m.active_rooms room_id { room with role_manager := rm }
                uuid_gen := m.uuid_gen + 1 })
    | .RenameRole role_id name =>
      match m.get_room room_id with
      | none => (.error (.RoomErr .RoomNotFound), cmd_impact, m)
      | some room =>
        match role_id with
        | none => (.error (.GenericError "Failed to read role_id"), cmd_impact, m)
        | some rid =>
          match room.role_manager.get_role_by_id rid with
          | none => (.error (.RoomErr .RoleNotFound), cmd_impact, m)
          | some role =>
            let room := { room with
              role_manager := room.role_manager.edit_role rid name role.permissions }
            (.ok none, cmd_impact,
              { m with active_rooms := updateRoom m.active_rooms room_id room })
    | .DeleteRole role_id =>
      match m.get_room room_id with
      | none => (.error (.RoomErr .RoomNotFound), cmd_impact, m)
      | some room =>
        match role_id with
        | none => (.error (.GenericError "Failed to read role_id"), cmd_impact, m)
        | some rid =>
          let room := { room with role_manager := room.role_manager.delete_role rid }
          (.ok none, cmd_impact,
            { m with active_rooms := updateRoom m.active_rooms room_id room })

/-! ## HTTP command endpoint (src/routes.rs, `proto_command`).  The request
body arrives as an already-decoded `Option HttpCmdType` (`none` covers a
protobuf decode failure and a missing `type` field, both of which answer the
same 400); the uuid fields stay as the raw protobuf byte vectors, since the
handler's treatment of them is part of its behavior. -/

inductive HttpCmdType
  | CreateRoom (user_id username name : String) (credentials : Option Unit)
  | GetRoom (room_id : List Nat)
  | JoinRoom (room_id : List Nat) (user_id username : String)
deriving Repr, DecidableEq

/-- `Uuid::from_slice(&room_id[..16])` once the `[..16]` slicing has
succeeded: `from_slice` fails only when the slice length is not 16, and the
slicing forces exactly 16 bytes, so the conversion is infallible (the
handler's `Wrong UUID format` 400 branch is dead code).  The 16 bytes are
packed big-endian into the `Nat` uuid; bytes past the 16th are ignored by
the slicing. -/
def uuidFromSlice16 (bytes : List Nat) : Nat :=
  (bytes.take 16).foldl (fun acc b => acc * 256 + b % 256) 0

/-- `proto_command`: the HTTP status code and the registry afterwards, or
`none` when the handler panics — which happens exactly when a room-uuid byte
vector shorter than 16 bytes reaches the `&room_id[..16]` slicing, so a
malformed uuid produces no status at all rather than a 400.  Protobuf
encoding of the response body is infallible and omitted (its error branches
are dead code behind `prost`). -/
def proto_command (m : RoomManager) (password : String) (body : Option HttpCmdType) :
    Option (Nat × RoomManager) :=
  match body with
  | none => some (400, m)
  | some (.CreateRoom user_id username name credentials) =>
    match credentials with
    | some _ =>
      match m.create_room password user_id username name with
      | .error _ => some (400, m)
      | .ok (_, m) => some (201, m)
    | none => some (503, m)
  | some (.GetRoom room_id) =>
    if room_id.length < 16 then none
    else
      match m.get_room (uuidFromSlice16 room_id) with
      | none => some (404, m)
      | some _ => some (200, m)
  | some (.JoinRoom room_id user_id username) =>
    if room_id.length < 16 then none
    else
      match m.join_room (uuidFromSlice16 room_id) username user_id with
      | .error _ => some (401, m)
      | .ok (_, m) => some (200, m)

/-! ## Map and invariant helpers -/

def RoomCoreBounds (r : Room) : Prop :=
  r.logs.length ≤ MAX_LOGS_LEN ∧ r.users.length ≤ MAX_USERS ∧ r.max_users = MAX_USERS

def QueueBound (r : Room) : Prop :=
  r.tracks_queue.length ≤ MAX_TRACKS_QUEUE_LEN

def AllRooms (rooms : List (Nat × Room)) (P : Room → Prop) : Prop :=
  ∀ p ∈ rooms, P p.2

theorem mem_updateRoom {rooms : List (Nat × Room)} {k : Nat} {r : Room}
    {p : Nat × Room} (hp : p ∈ updateRoom rooms k r) : p = (k, r) ∨ p ∈ rooms := by
  unfold updateRoom at hp
  rcases List.mem_map.1 hp with ⟨q, hq, hqe⟩
  by_cases h : q.1 = k
  · rw [if_pos (by simp [h])] at hqe; left; exact hqe.symm
  · rw [if_neg (by simp [h])] at hqe; right; exact hqe ▸ hq

theorem mem_insertRoom {rooms : List (Nat × Room)} {k : Nat} {r : Room}
    {p : Nat × Room} (hp : p ∈ insertRoom rooms k r) : p = (k, r) ∨ p ∈ rooms := by
  unfold insertRoom at hp
  split at hp
  · exact mem_updateRoom hp
  · rcases List.mem_append.1 hp with h | h
    · right; exact h
    · left; simpa using h

theorem mem_eraseRoom {rooms : List (Nat × Room)} {k : Nat}
    {p : Nat × Room} (hp : p ∈ eraseRoom rooms k) : p ∈ rooms :=
  (List.mem_filter.1 hp).1

theorem allRooms_updateRoom {rooms : List (Nat × Room)} {k : Nat} {r : Room}
    {P : Room → Prop} (hall : AllRooms rooms P) (hr : P r) :
    AllRooms (updateRoom rooms k r) P := by
  intro p hp
  rcases mem_updateRoom hp with h | h
  · rw [h]; exact hr
  · exact hall p h

theorem allRooms_insertRoom {rooms : List (Nat × Room)} {k : Nat} {r : Room}
    {P : Room → Prop} (hall : AllRooms rooms P) (hr : P r) :
    AllRooms (insertRoom rooms k r) P := by
  intro p hp
  rcases mem_insertRoom hp with h | h
  · rw [h]; exact hr
  · exact hall p h

theorem findRoom_mem {rooms : List (Nat × Room)} {k : Nat} {r : Room}
    (h : findRoom rooms k = some r) : ∃ p ∈ rooms, p.2 = r := by
  unfold findRoom at h
  rcases Option.map_eq_some'.1 h with ⟨q, hq, hqe⟩
  exact ⟨q, List.mem_of_find?_eq_some hq, hqe⟩

/-! ## C7 — RoleManager.remove_role -/

def rolesC7 : RoleManager :=
  ⟨[Role.new_owner 1, Role.new_guest 2]⟩

/-- C7: evaluating `remove_role` at its failing input.  On the two-entry
table [Owner(id 1), Guest(id 2)], `remove_role 2` keeps ONLY the Guest entry
and deletes the Owner entry: the `retain(|role| role.id == id)` predicate is
inverted, so the operation removes every role except the one it was asked to
remove, contradicting the claim that all other entries survive unchanged and
in order. -/
theorem remove_role_inverted_retain :
    (rolesC7.remove_role 2).roles = [Role.new_guest 2] ∧
      Role.new_owner 1 ∈ rolesC7.roles ∧
      Role.new_owner 1 ∉ (rolesC7.remove_role 2).roles := by
  decide

/-! ## C2 — inactivity check -/

def roomC2 : Room :=
  { id := 1
    name := "r"
    password := "p"
    users := [⟨"u1", "alice", 7, false⟩]
    banned_users := []
    role_manager := ⟨[]⟩
    tracks_queue := []
    max_users := MAX_USERS
    logs := []
    inactive_for := some 100 }

def mC2 : RoomManager :=
  ⟨[(1, roomC2)], ["u1"], 10⟩

/-- C2: the inactivity check deletes a room only 5 SECONDS after
`inactive_for` was set.  `roomC2` has zero connected participants and
`inactive_for = some 100` (seconds); one tick at `now = 105` — one
`DATA_FETCHING_INTERVAL` of 5 s later — already deletes the room, because the
code compares `inactive.elapsed().as_secs()` against `INACTIVE_ROOM_MINS = 5`,
i.e. a number of seconds against a count of minutes.  The claimed 5-minute
(300 s) grace is never granted: 105 - 100 = 5 < 300. -/
theorem activity_check_reaps_after_five_seconds :
    (activity_check_tick mC2 1 105).2 = true ∧
      findRoom (activity_check_tick mC2 1 105).1.active_rooms 1 = none ∧
      105 - 100 < INACTIVE_ROOM_MINS * 60 := by
  decide

/-! ## C10 / C5 — remove_track_from_queue -/

/-- C10: whenever the room exists, `remove_track_from_queue` returns `Ok` for
every supplied track id (empty queue, unknown id and non-front matches
included), and when the room is absent the result is exactly
`RoomNotFound`; `TrackNotFound` is never produced. -/
theorem remove_track_from_queue_always_ok (m : RoomManager) (id : Nat)
    (track_id : String) :
    (∀ room, findRoom m.active_rooms id = some room →
        ∃ m', m.remove_track_from_queue id track_id = .ok m') ∧
      (findRoom m.active_rooms id = none →
        m.remove_track_from_queue id track_id = .error .RoomNotFound) := by
  unfold RoomManager.remove_track_from_queue
  constructor
  · intro room h; rw [h]; exact ⟨_, rfl⟩
  · intro h; rw [h]

def roomC10 : Room :=
  { id := 1
    name := "r"
    password := "p"
    users := [⟨"u1", "alice", 7, false⟩]
    banned_users := []
    role_manager := ⟨[]⟩
    tracks_queue := [⟨"tA", "u1", "song", 9⟩]
    max_users := MAX_USERS
    logs := []
    inactive_for := none }

def mC10 : RoomManager :=
  ⟨[(1, roomC10)], ["u1"], 10⟩

/-- C10 witness: in a registry holding room 1 with a one-track queue, a
non-matching id still yields `Ok`, and asking about absent room 2 yields
`RoomNotFound`. -/
theorem remove_track_from_queue_always_ok_witness :
    (∃ m', mC10.remove_track_from_queue 1 "other" = .ok m') ∧
      mC10.remove_track_from_queue 2 "tA" = .error .RoomNotFound :=
  ⟨(remove_track_from_queue_always_ok mC10 1 "other").1 roomC10 (by decide),
    (remove_track_from_queue_always_ok mC10 2 "tA").2 (by decide)⟩

/-- C5: head-only dequeue.  When the room exists, the call succeeds and the
room is rewritten with: the front entry popped and precisely the remaining
tail kept, when the front entry carries the supplied track id; the queue
completely untouched otherwise (in particular non-front entries are never
removed); every other field of the room is unchanged. -/
theorem remove_track_from_queue_head_only (m : RoomManager) (id : Nat)
    (track_id : String) (room : Room)
    (h : findRoom m.active_rooms id = some room) :
    ∃ room',
      m.remove_track_from_queue id track_id =
        .ok { m with active_rooms := updateRoom m.active_rooms id room' } ∧
      room' = { room with tracks_queue := room'.tracks_queue } ∧
      ((∃ t ts, room.tracks_queue = t :: ts ∧ t.track_id = track_id ∧
          room'.tracks_queue = ts) ∨
        ((∀ t ts, room.tracks_queue = t :: ts → t.track_id ≠ track_id) ∧
          room'.tracks_queue = room.tracks_queue)) := by
  unfold RoomManager.remove_track_from_queue
  rw [h]
  cases hq : room.tracks_queue with
  | nil =>
    exact ⟨room, by simp [hq], rfl, .inr ⟨(fun t ts hts => nomatch hts), hq⟩⟩
  | cons t ts =>
    by_cases ht : t.track_id = track_id
    · exact ⟨{ room with tracks_queue := ts }, by simp [hq, ht], rfl, .inl ⟨t, ts, rfl, ht, rfl⟩⟩
    · refine ⟨room, by simp [hq, ht], rfl, .inr ⟨?_, hq⟩⟩
      intro t' ts' hts
      cases hts
      exact ht

/-- C5 witness: with a concrete two-track queue and the front entry's id
supplied, the theorem applies: the call pops exactly the front entry. -/
def roomC5 : Room :=
  { roomC10 with tracks_queue := [⟨"tA", "u1", "song", 9⟩, ⟨"tB", "u1", "tune", 7⟩] }

def mC5 : RoomManager :=
  ⟨[(1, roomC5)], ["u1"], 10⟩

theorem remove_track_from_queue_head_only_witness :
    ∃ room',
      mC5.remove_track_from_queue 1 "tA" =
        .ok { mC5 with active_rooms := updateRoom mC5.active_rooms 1 room' } ∧
      room' = { roomC5 with tracks_queue := room'.tracks_queue } ∧
      ((∃ t ts, roomC5.tracks_queue = t :: ts ∧ t.track_id = "tA" ∧
          room'.tracks_queue = ts) ∨
        ((∀ t ts, roomC5.tracks_queue = t :: ts → t.track_id ≠ "tA") ∧
          room'.tracks_queue = roomC5.tracks_queue)) :=
  remove_track_from_queue_head_only mC5 1 "tA" roomC5 (by decide)

/-! ## C9 — join_room with an empty role table -/

def roomC9 : Room :=
  { id := 1
    name := "r"
    password := "p"
    users := [⟨"u1", "alice", 7, false⟩]
    banned_users := []
    role_manager := ⟨[]⟩
    tracks_queue := []
    max_users := MAX_USERS
    logs := []
    inactive_for := none }

def mC9 : RoomManager :=
  ⟨[(1, roomC9)], ["u1"], 50⟩

/-- C9 counterexample: joining room 1 of `mC9` (empty role table, generator
at 50) succeeds, but the joining participant is assigned role id 50 — the id
of the locally built Guest value — while the role actually added to the table
carries the DIFFERENT fresh id 51 drawn inside `add_role`.  The participant's
role id resolves to no table entry, so no single role is both "added to the
room's role table" and "assigned to the joining participant" as the claim
asserts. -/
theorem join_room_empty_roles_cex :
    (RoomManager.join_room mC9 1 "bob" "u2").toOption.map
        (fun r => (r.1.users.getLast?, r.1.role_manager.roles.map Role.id,
          r.1.role_manager.get_role_by_id 50)) =
      some (some ⟨"u2", "bob", 50, false⟩, [51], none) := by
  decide

/-- C9 (amended): if `join_room` passes the user-id, ban and capacity checks
while the room's role table is empty, it does not fail: it builds a fresh
Guest role (all five permissions false) with one fresh id, the table receives
a COPY of it under a second, distinct fresh id, and the joining participant
is assigned the FIRST id — which therefore matches no entry of the resulting
table. -/
theorem join_room_empty_roles_amended (m : RoomManager) (room_id : Nat)
    (username user_id : String) (room : Room)
    (huid : m.user_id_exists user_id = false)
    (hroom : findRoom m.active_rooms room_id = some room)
    (hban : room.banned_users.contains user_id = false)
    (hfull : room.users.length ≠ room.max_users)
    (hroles : room.role_manager.roles = []) :
    ∃ room' m',
      RoomManager.join_room m room_id username user_id = .ok (room', m') ∧
      room'.role_manager.roles = [Role.new_guest (m.uuid_gen + 1)] ∧
      room'.users = room.users ++ [⟨user_id, username, m.uuid_gen, false⟩] ∧
      m.uuid_gen ≠ m.uuid_gen + 1 ∧
      room'.role_manager.get_role_by_id m.uuid_gen = none := by
  have hbe : (room.users.length == room.max_users) = false := by
    simp [hfull]
  have hlast : room.role_manager.get_roles.getLast? = none := by
    unfold RoleManager.get_roles
    rw [hroles]
    rfl
  have hguested : (guestedRoom room m.uuid_gen).role_manager =
      ⟨[Role.new_guest (m.uuid_gen + 1)]⟩ := by
    unfold guestedRoom RoleManager.add_role RoleManager.sortRoles
    rw [hroles]
    rfl
  unfold RoomManager.join_room
  rw [huid]
  simp only [Bool.false_eq_true, if_false]
  simp only [hroom, hban, Bool.false_eq_true, if_false, hbe, hlast]
  refine ⟨_, _, rfl, ?_, ?_, by omega, ?_⟩
  · show (guestedRoom room m.uuid_gen).role_manager.roles = _
    rw [hguested]
  · rfl
  · show (guestedRoom room m.uuid_gen).role_manager.get_role_by_id m.uuid_gen = none
    rw [hguested]
    simp [RoleManager.get_role_by_id, Role.new_guest, Nat.succ_ne_self]

/-- C9 witness: the amended theorem applied at the concrete registry `mC9`. -/
theorem join_room_empty_roles_amended_witness :
    ∃ room' m',
      RoomManager.join_room mC9 1 "bob" "u2" = .ok (room', m') ∧
      room'.role_manager.roles = [Role.new_guest 51] ∧
      room'.users = roomC9.users ++ [⟨"u2", "bob", 50, false⟩] ∧
      (50 : Nat) ≠ 51 ∧
      room'.role_manager.get_role_by_id 50 = none :=
  join_room_empty_roles_amended mC9 1 "bob" "u2" roomC9
    (by decide) (by decide) (by decide) (by decide) (by decide)


/-! ## C3 — rate limiter -/

instance : DecidableEq (Except SpotifyError Unit) := fun
  | .ok a, .ok b =>
    if h : a = b then .isTrue (by rw [h]) else .isFalse (fun hh => h (by injection hh))
  | .ok _, .error _ => .isFalse (fun hh => Except.noConfusion hh)
  | .error _, .ok _ => .isFalse (fun hh => Except.noConfusion hh)
  | .error e, .error f =>
    if h : e = f then .isTrue (by rw [h]) else .isFalse (fun hh => h (by injection hh))

theorem incrementTimes_append (rl : RateLimiter) (ts ts' : List Nat) :
    rl.incrementTimes (ts ++ ts') =
      (((rl.incrementTimes ts).1.incrementTimes ts').1,
        (rl.incrementTimes ts).2 ++ ((rl.incrementTimes ts).1.incrementTimes ts').2) := by
  induction ts generalizing rl with
  | nil => simp [RateLimiter.incrementTimes]
  | cons t ts ih =>
    simp only [List.cons_append, RateLimiter.incrementTimes, List.append_eq]
    rw [ih]

/-- An in-window run that stays strictly below the threshold: every call
returns Ok, the window start is untouched, and the counter advances by the
number of calls. -/
theorem incrementTimes_all_ok (w c : Nat) (ts : List Nat)
    (hw : ∀ t ∈ ts, t - w ≤ RATE_LIMIT_REQUEST_WINDOW_MS)
    (hc : c + ts.length < REQUEST_COUNT_PER_WINDOW) :
    RateLimiter.incrementTimes ⟨w, c⟩ ts =
      (⟨w, c + ts.length⟩, ts.map (fun _ => .ok ())) := by
  induction ts generalizing c with
  | nil => simp [RateLimiter.incrementTimes]
  | cons t ts ih =>
    have ht : t - w ≤ RATE_LIMIT_REQUEST_WINDOW_MS := hw t (List.mem_cons_self t ts)
    have hlen : c + (t :: ts).length = c + 1 + ts.length := by
      simp only [List.length_cons]
      omega
    have hmod : (c + 1) % 256 = c + 1 := by
      apply Nat.mod_eq_of_lt
      simp only [List.length_cons] at hc
      unfold REQUEST_COUNT_PER_WINDOW at hc
      omega
    have hlt : ¬ REQUEST_COUNT_PER_WINDOW ≤ (c + 1) % 256 := by
      rw [hmod]
      simp only [List.length_cons] at hc
      omega
    have hstep : RateLimiter.increment ⟨w, c⟩ t = (⟨w, c + 1⟩, .ok ()) := by
      unfold RateLimiter.increment
      dsimp only
      rw [if_neg (by omega), if_neg hlt, hmod]
    have hrec := ih (c + 1) (fun t' ht' => hw t' (List.mem_cons_of_mem t ht'))
      (by simp only [List.length_cons] at hc; omega)
    simp only [RateLimiter.incrementTimes, hstep, hrec, List.map_cons, hlen]

/-- C3 counterexample: from a freshly reset limiter (window start 0,
counter 1, as `RateLimiter::default()` builds it), nine calls all inside the
window do NOT all return Ok — the ninth already fails — refuting the claim
that the first nine calls return Ok and only the tenth is rate-limited. -/
theorem rate_limiter_ninth_call_cex :
    (RateLimiter.incrementTimes ⟨0, 1⟩ (List.replicate 9 0)).2 ≠
      List.replicate 9 (.ok ()) := by
  decide

/-- C3 (amended): starting from a freshly reset window (counter = 1), for
any calls all falling within the 30-second window, the first EIGHT calls
return Ok and the NINTH returns `RateLimited r` with `0 ≤ r ≤ 30`; a call
arriving when more than 30 seconds have elapsed since the window start
resets the window start to now, resets the counter to 1, and returns Ok. -/
theorem rate_limiter_window_amended (w : Nat) (ts : List Nat) (t9 : Nat)
    (hlen : ts.length = 8)
    (hw : ∀ t ∈ ts, t - w ≤ RATE_LIMIT_REQUEST_WINDOW_MS)
    (h9 : t9 - w ≤ RATE_LIMIT_REQUEST_WINDOW_MS)
    (treset : Nat) (hreset : RATE_LIMIT_REQUEST_WINDOW_MS < treset - w) :
    (∃ r, (RateLimiter.incrementTimes ⟨w, 1⟩ (ts ++ [t9])).2 =
        ts.map (fun _ => .ok ()) ++ [.error (.RateLimited r)] ∧ r ≤ 30) ∧
      RateLimiter.increment ⟨w, 1⟩ treset = (⟨treset, 1⟩, .ok ()) := by
  constructor
  · have hrun := incrementTimes_all_ok w 1 ts hw
      (by rw [hlen]; unfold REQUEST_COUNT_PER_WINDOW; omega)
    have hcnt : REQUEST_COUNT_PER_WINDOW ≤ (1 + ts.length + 1) % 256 := by
      rw [hlen]
      decide
    have hninth : RateLimiter.increment ⟨w, 1 + ts.length⟩ t9 =
        (⟨w, (1 + ts.length + 1) % 256⟩,
          .error (.RateLimited
            (RATE_LIMIT_REQUEST_WINDOW_MS / 1000 - (t9 - w) / 1000))) := by
      unfold RateLimiter.increment
      dsimp only
      rw [if_neg (by omega), if_pos hcnt]
    refine ⟨RATE_LIMIT_REQUEST_WINDOW_MS / 1000 - (t9 - w) / 1000, ?_,
      le_trans (Nat.sub_le _ _) (by decide)⟩
    rw [incrementTimes_append, hrun]
    simp [RateLimiter.incrementTimes, hninth]
  · unfold RateLimiter.increment
    dsimp only
    rw [if_pos hreset]

/-- C3 witness: the amended theorem at window start 0, eight calls at time 0,
a ninth call at time 0, and a reset call at 30001 ms. -/
theorem rate_limiter_window_amended_witness :
    (∃ r, (RateLimiter.incrementTimes ⟨0, 1⟩ (List.replicate 8 0 ++ [0])).2 =
        (List.replicate 8 0).map (fun _ => .ok ()) ++ [.error (.RateLimited r)] ∧
        r ≤ 30) ∧
      RateLimiter.increment ⟨0, 1⟩ 30001 = (⟨30001, 1⟩, .ok ()) :=
  rate_limiter_window_amended 0 (List.replicate 8 0) 0 (by decide)
    (fun t ht => by simp [List.eq_of_mem_replicate ht]) (by decide)
    30001 (by decide)

/-! ## C1 — registry bounds -/

theorem findRoom_updateRoom (rooms : List (Nat × Room)) (k : Nat) (r : Room)
    (h : (findRoom rooms k).isSome) :
    findRoom (updateRoom rooms k r) k = some r := by
  induction rooms with
  | nil => simp [findRoom] at h
  | cons p ps ih =>
    by_cases hk : p.1 = k
    · have h1 : updateRoom (p :: ps) k r = (k, r) :: updateRoom ps k r := by
        unfold updateRoom
        rw [List.map_cons, if_pos (by simp [hk])]
      rw [h1]
      unfold findRoom
      rw [List.find?_cons_of_pos _ (by simp)]
      rfl
    · have h1 : updateRoom (p :: ps) k r = p :: updateRoom ps k r := by
        unfold updateRoom
        rw [List.map_cons, if_neg (by simp [hk])]
      rw [h1]
      unfold findRoom at h ⊢
      rw [List.find?_cons_of_neg _ (by simp [hk])] at h ⊢
      exact ih h

theorem append_log_preserves_bounds (m : RoomManager) (rid : Nat) (log : Log)
    (m' : RoomManager) (h : m.append_log rid log = .ok m')
    (hall : AllRooms m.active_rooms (fun r => RoomCoreBounds r ∧ QueueBound r)) :
    AllRooms m'.active_rooms (fun r => RoomCoreBounds r ∧ QueueBound r) := by
  unfold RoomManager.append_log at h
  split at h
  · cases h
  · rename_i room hf
    simp only [Except.ok.injEq] at h
    subst h
    obtain ⟨p, hp, hpe⟩ := findRoom_mem hf
    have hroom := hall p hp
    rw [hpe] at hroom
    refine allRooms_updateRoom hall ⟨⟨?_, hroom.1.2.1, hroom.1.2.2⟩, hroom.2⟩
    have hM : MAX_LOGS_LEN = 25 := rfl
    have h25 := hroom.1.1
    by_cases hl : MAX_LOGS_LEN ≤ room.logs.length
    · rw [if_pos hl]
      simp only [List.length_append, List.length_tail, List.length_cons,
        List.length_nil]
      omega
    · rw [if_neg hl]
      simp only [List.length_append, List.length_cons, List.length_nil]
      omega

theorem create_room_preserves_bounds (m : RoomManager) (pw uid un nm : String)
    (room : Room) (m' : RoomManager)
    (h : m.create_room pw uid un nm = .ok (room, m'))
    (hall : AllRooms m.active_rooms (fun r => RoomCoreBounds r ∧ QueueBound r)) :
    AllRooms m'.active_rooms (fun r => RoomCoreBounds r ∧ QueueBound r) := by
  unfold RoomManager.create_room at h
  split at h
  · cases h
  · split at h
    · cases h
    · rename_i roomF hf
      simp only [Except.ok.injEq, Prod.mk.injEq] at h
      obtain ⟨hr, hm⟩ := h
      subst hm
      intro p hp
      refine allRooms_insertRoom hall ⟨⟨?_, ?_, rfl⟩, ?_⟩ p hp
      · norm_num [createdRoom]
      · norm_num [createdRoom, MAX_USERS]
      · norm_num [QueueBound, createdRoom]

theorem join_room_preserves_bounds (m : RoomManager) (rid : Nat) (un uid : String)
    (room : Room) (m' : RoomManager)
    (h : m.join_room rid un uid = .ok (room, m'))
    (hall : AllRooms m.active_rooms (fun r => RoomCoreBounds r ∧ QueueBound r)) :
    AllRooms m'.active_rooms (fun r => RoomCoreBounds r ∧ QueueBound r) := by
  unfold RoomManager.join_room at h
  split at h
  · cases h
  · split at h
    · cases h
    · rename_i room0 hf
      obtain ⟨p, hp, hpe⟩ := findRoom_mem hf
      have hroom := hall p hp
      rw [hpe] at hroom
      split at h
      · cases h
      · split at h
        · cases h
        · rename_i hban hfull
          have hU : MAX_USERS = 15 := rfl
          have husers : room0.users.length + 1 ≤ MAX_USERS := by
            have h1 := hroom.1.2.1
            have h2 := hroom.1.2.2
            have h3 : room0.users.length ≠ room0.max_users :=
              fun he => hfull (by simp [he])
            omega
          split at h
          · rename_i role hl
            simp only [Except.ok.injEq, Prod.mk.injEq] at h
            obtain ⟨hr, hm⟩ := h
            subst hm
            refine allRooms_updateRoom hall ⟨⟨?_, ?_, ?_⟩, ?_⟩
            · simpa [joinedRoom] using hroom.1.1
            · simpa [joinedRoom] using husers
            · simpa [joinedRoom] using hroom.1.2.2
            · simpa [joinedRoom, QueueBound] using hroom.2
          · rename_i hl
            simp only [Except.ok.injEq, Prod.mk.injEq] at h
            obtain ⟨hr, hm⟩ := h
            subst hm
            refine allRooms_updateRoom hall ⟨⟨?_, ?_, ?_⟩, ?_⟩
            · simpa [joinedRoom, guestedRoom] using hroom.1.1
            · simpa [joinedRoom, guestedRoom] using husers
            · simpa [joinedRoom, guestedRoom] using hroom.1.2.2
            · simpa [joinedRoom, guestedRoom, QueueBound] using hroom.2

theorem kick_user_preserves_bounds (m : RoomManager) (rid : Nat)
    (aid uid rsn : String) (m' : RoomManager)
    (h : m.kick_user rid aid uid rsn = .ok m')
    (hall : AllRooms m.active_rooms (fun r => RoomCoreBounds r ∧ QueueBound r)) :
    AllRooms m'.active_rooms (fun r => RoomCoreBounds r ∧ QueueBound r) := by
  unfold RoomManager.kick_user at h
  split at h
  · cases h
  · rename_i room hf
    split at h
    · cases h
    · split at h
      · cases h
      · obtain ⟨p, hp, hpe⟩ := findRoom_mem hf
        have hroom := hall p hp
        rw [hpe] at hroom
        refine append_log_preserves_bounds _ _ _ _ h ?_
        exact allRooms_updateRoom hall
          ⟨⟨hroom.1.1, le_trans (List.length_filter_le _ _) hroom.1.2.1,
            hroom.1.2.2⟩, hroom.2⟩

theorem ban_user_preserves_bounds (m : RoomManager) (rid : Nat)
    (aid uid rsn : String) (m' : RoomManager)
    (h : m.ban_user rid aid uid rsn = .ok m')
    (hall : AllRooms m.active_rooms (fun r => RoomCoreBounds r ∧ QueueBound r)) :
    AllRooms m'.active_rooms (fun r => RoomCoreBounds r ∧ QueueBound r) := by
  unfold RoomManager.ban_user at h
  split at h
  · cases h
  · rename_i room hf
    split at h
    · cases h
    · split at h
      · cases h
      · obtain ⟨p, hp, hpe⟩ := findRoom_mem hf
        have hroom := hall p hp
        rw [hpe] at hroom
        refine append_log_preserves_bounds _ _ _ _ h ?_
        exact allRooms_updateRoom hall
          ⟨⟨hroom.1.1, le_trans (List.length_filter_le _ _) hroom.1.2.1,
            hroom.1.2.2⟩, hroom.2⟩

theorem add_track_preserves_core_bounds (m : RoomManager) (id : Nat)
    (uid tid tn : String) (d : Nat) (m' : RoomManager)
    (h : m.add_track_to_queue id uid tid tn d = .ok m')
    (hall : AllRooms m.active_rooms RoomCoreBounds) :
    AllRooms m'.active_rooms RoomCoreBounds := by
  unfold RoomManager.add_track_to_queue at h
  split at h
  · cases h
  · rename_i room hf
    split at h
    · cases h
    · simp only [Except.ok.injEq] at h
      subst h
      obtain ⟨p, hp, hpe⟩ := findRoom_mem hf
      have hroom := hall p hp
      rw [hpe] at hroom
      exact allRooms_updateRoom hall ⟨hroom.1, hroom.2.1, hroom.2.2⟩

theorem add_track_appends_unconditionally (m : RoomManager) (id : Nat)
    (uid tid tn : String) (d : Nat) (m' : RoomManager) (room : Room)
    (h : m.add_track_to_queue id uid tid tn d = .ok m')
    (hf : findRoom m.active_rooms id = some room) :
    findRoom m'.active_rooms id =
      some { room with tracks_queue := room.tracks_queue ++ [⟨tid, uid, tn, d⟩] } := by
  unfold RoomManager.add_track_to_queue at h
  split at h
  · rename_i hf'
    rw [hf'] at hf
    cases hf
  · rename_i room0 hf'
    rw [hf'] at hf
    injection hf with hf
    subst hf
    split at h
    · cases h
    · simp only [Except.ok.injEq] at h
      subst h
      exact findRoom_updateRoom _ _ _ (by rw [hf']; rfl)

/-- C1 (amended): every one of the six registry mutations (create_room,
join_room, append_log, kick_user, ban_user, add_track_to_queue) preserves
|R.logs| ≤ 25 and |R.users| ≤ 15 for every room of the registry; the first
five also preserve |R.tracks_queue| ≤ 50, but add_track_to_queue does NOT —
it appends unconditionally (MAX_TRACKS_QUEUE_LEN is only an allocation
capacity), growing the target room's queue by exactly one even at the
claimed bound. -/
theorem registry_mutations_bounds_amended :
    (∀ m pw uid un nm room m', RoomManager.create_room m pw uid un nm = .ok (room, m') →
      AllRooms m.active_rooms (fun r => RoomCoreBounds r ∧ QueueBound r) →
      AllRooms m'.active_rooms (fun r => RoomCoreBounds r ∧ QueueBound r)) ∧
    (∀ m rid un uid room m', RoomManager.join_room m rid un uid = .ok (room, m') →
      AllRooms m.active_rooms (fun r => RoomCoreBounds r ∧ QueueBound r) →
      AllRooms m'.active_rooms (fun r => RoomCoreBounds r ∧ QueueBound r)) ∧
    (∀ m rid log m', RoomManager.append_log m rid log = .ok m' →
      AllRooms m.active_rooms (fun r => RoomCoreBounds r ∧ QueueBound r) →
      AllRooms m'.active_rooms (fun r => RoomCoreBounds r ∧ QueueBound r)) ∧
    (∀ m rid aid uid rsn m', RoomManager.kick_user m rid aid uid rsn = .ok m' →
      AllRooms m.active_rooms (fun r => RoomCoreBounds r ∧ QueueBound r) →
      AllRooms m'.active_rooms (fun r => RoomCoreBounds r ∧ QueueBound r)) ∧
    (∀ m rid aid uid rsn m', RoomManager.ban_user m rid aid uid rsn = .ok m' →
      AllRooms m.active_rooms (fun r => RoomCoreBounds r ∧ QueueBound r) →
      AllRooms m'.active_rooms (fun r => RoomCoreBounds r ∧ QueueBound r)) ∧
    (∀ m id uid tid tn d m', RoomManager.add_track_to_queue m id uid tid tn d = .ok m' →
      AllRooms m.active_rooms RoomCoreBounds →
      AllRooms m'.active_rooms RoomCoreBounds) ∧
    (∀ m id uid tid tn d m' room,
      RoomManager.add_track_to_queue m id uid tid tn d = .ok m' →
      findRoom m.active_rooms id = some room →
      findRoom m'.active_rooms id =
        some { room with tracks_queue := room.tracks_queue ++ [⟨tid, uid, tn, d⟩] }) :=
  ⟨fun m pw uid un nm room m' h hall =>
      create_room_preserves_bounds m pw uid un nm room m' h hall,
    fun m rid un uid room m' h hall =>
      join_room_preserves_bounds m rid un uid room m' h hall,
    fun m rid log m' h hall => append_log_preserves_bounds m rid log m' h hall,
    fun m rid aid uid rsn m' h hall =>
      kick_user_preserves_bounds m rid aid uid rsn m' h hall,
    fun m rid aid uid rsn m' h hall =>
      ban_user_preserves_bounds m rid aid uid rsn m' h hall,
    fun m id uid tid tn d m' h hall =>
      add_track_preserves_core_bounds m id uid tid tn d m' h hall,
    fun m id uid tid tn d m' room h hf =>
      add_track_appends_unconditionally m id uid tid tn d m' room h hf⟩

def trackC1 : RoomTrack :=
  ⟨"t", "u1", "n", 1⟩

def roomC1 : Room :=
  { id := 1
    name := "r"
    password := "p"
    users := [⟨"u1", "alice", 7, false⟩]
    banned_users := []
    role_manager := ⟨[]⟩
    tracks_queue := List.replicate MAX_TRACKS_QUEUE_LEN trackC1
    max_users := MAX_USERS
    logs := []
    inactive_for := none }

def mC1 : RoomManager :=
  ⟨[(1, roomC1)], ["u1"], 10⟩

/-- C1 counterexample: in a registry whose only room already holds exactly
MAX_TRACKS_QUEUE_LEN = 50 queued tracks, `add_track_to_queue` succeeds and
leaves the room with 51 — the mutation does not preserve
|R.tracks_queue| ≤ 50. -/
theorem add_track_to_queue_overflow_cex :
    roomC1.tracks_queue.length = MAX_TRACKS_QUEUE_LEN ∧
      (RoomManager.add_track_to_queue mC1 1 "u1" "t2" "n2" 3).toOption.map
          (fun m' => (findRoom m'.active_rooms 1).map
            (fun r => r.tracks_queue.length)) =
        some (some (MAX_TRACKS_QUEUE_LEN + 1)) := by
  decide

def mW0 : RoomManager :=
  ⟨[], [], 0⟩

def createW : Room × RoomManager :=
  match RoomManager.create_room mW0 "pw" "u1" "alice" "room" with
  | .ok rm => rm
  | .error _ => (roomC1, mW0)

/-- C1 witness: the create_room conjunct of the amended theorem applied at
the empty registry; the bound invariant holds for every room of the
resulting registry. -/
theorem registry_mutations_bounds_amended_witness :
    AllRooms createW.2.active_rooms (fun r => RoomCoreBounds r ∧ QueueBound r) :=
  registry_mutations_bounds_amended.1 mW0 "pw" "u1" "alice" "room"
    createW.1 createW.2 rfl (fun _ hp => nomatch hp)

/-! ## C8 — POST /v1 status codes -/

def mC8 : RoomManager :=
  ⟨[(1, roomC10)], ["u1"], 10⟩

/-- C8 counterexample: a malformed room uuid — the empty byte vector, shorter
than the 16 bytes the handler slices off — supplied to GetRoom does NOT get a
400 response.  `Uuid::from_slice(&room_id[..16])` can only be reached with a
16-byte slice, on which it never fails, so the handler's `Wrong UUID format`
400 branch is dead code; the malformed input instead panics at the `[..16]`
slicing, producing no status at all (`none`), refuting the claim's
400-on-malformed-UUID conjunct. -/
theorem proto_command_malformed_uuid_cex :
    proto_command mC8 "pw" (some (.GetRoom [])) = none ∧
      proto_command mC8 "pw" (some (.JoinRoom [] "u9" "zoe")) = none := by
  decide

/-- C8 (amended): the status codes of the POST /v1 handler: 400 when the body
fails to decode (or the command type is missing) and when CreateRoom fails;
201 on successful CreateRoom; for GetRoom/JoinRoom a room-uuid byte vector
shorter than 16 bytes yields NO status — the handler panics at the
`&room_id[..16]` slicing, the dead `Wrong UUID format` 400 branch
notwithstanding — while with at least 16 bytes the uuid conversion is
infallible and the handler answers 200 on success, 404 when the GetRoom room
is not found, 401 when the join is rejected; 503 for the unhandled variants
(CreateRoom without credentials). -/
theorem proto_command_status_codes (m : RoomManager) (pw : String) :
    (proto_command m pw none = some (400, m)) ∧
    (∀ uid un nm, proto_command m pw (some (.CreateRoom uid un nm none)) = some (503, m)) ∧
    (∀ uid un nm room m', m.create_room pw uid un nm = .ok (room, m') →
      proto_command m pw (some (.CreateRoom uid un nm (some ()))) = some (201, m')) ∧
    (∀ uid un nm e, m.create_room pw uid un nm = .error e →
      proto_command m pw (some (.CreateRoom uid un nm (some ()))) = some (400, m)) ∧
    (∀ rid : List Nat, rid.length < 16 →
      proto_command m pw (some (.GetRoom rid)) = none) ∧
    (∀ rid room, 16 ≤ rid.length → m.get_room (uuidFromSlice16 rid) = some room →
      proto_command m pw (some (.GetRoom rid)) = some (200, m)) ∧
    (∀ rid, 16 ≤ rid.length → m.get_room (uuidFromSlice16 rid) = none →
      proto_command m pw (some (.GetRoom rid)) = some (404, m)) ∧
    (∀ rid uid un, rid.length < 16 →
      proto_command m pw (some (.JoinRoom rid uid un)) = none) ∧
    (∀ rid uid un room m', 16 ≤ rid.length →
      m.join_room (uuidFromSlice16 rid) un uid = .ok (room, m') →
      proto_command m pw (some (.JoinRoom rid uid un)) = some (200, m')) ∧
    (∀ rid uid un e, 16 ≤ rid.length →
      m.join_room (uuidFromSlice16 rid) un uid = .error e →
      proto_command m pw (some (.JoinRoom rid uid un)) = some (401, m)) := by
  refine ⟨rfl, fun uid un nm => rfl, ?_, ?_, ?_, ?_, ?_, ?_, ?_, ?_⟩
  · intro uid un nm room m' h
    simp [proto_command, h]
  · intro uid un nm e h
    simp [proto_command, h]
  · intro rid hlen
    simp [proto_command, hlen]
  · intro rid room hlen h
    simp [proto_command, Nat.not_lt.2 hlen, h]
  · intro rid hlen h
    simp [proto_command, Nat.not_lt.2 hlen, h]
  · intro rid uid un hlen
    simp [proto_command, hlen]
  · intro rid uid un room m' hlen h
    simp [proto_command, Nat.not_lt.2 hlen, h]
  · intro rid uid un e hlen h
    simp [proto_command, Nat.not_lt.2 hlen, h]

/-- C8 witness: the amended theorem at a concrete registry — 200 for the
present room (16-byte id decoding to 1), 404 for an absent room (16 zero
bytes), `none` (panic) for the empty malformed id, 400 for a decode
failure. -/
theorem proto_command_status_codes_witness :
    proto_command mC8 "pw" (some (.GetRoom (List.replicate 15 0 ++ [1]))) =
        some (200, mC8) ∧
      proto_command mC8 "pw" (some (.GetRoom (List.replicate 16 0))) =
        some (404, mC8) ∧
      proto_command mC8 "pw" (some (.GetRoom [])) = none ∧
      proto_command mC8 "pw" none = some (400, mC8) :=
  ⟨(proto_command_status_codes mC8 "pw").2.2.2.2.2.1 (List.replicate 15 0 ++ [1])
      roomC10 (by decide) (by decide),
    (proto_command_status_codes mC8 "pw").2.2.2.2.2.2.1 (List.replicate 16 0)
      (by decide) (by decide),
    (proto_command_status_codes mC8 "pw").2.2.2.2.1 [] (by decide),
    (proto_command_status_codes mC8 "pw").1⟩

/-! ## C4 — command authorization -/

/-- The required-permission table as the specification states it: nothing for
GetRoom/LeaveRoom; add-song for Search/AddToQueue; use-controls for the six
player commands; manage-users for Kick/Ban; manage-users AND add-moderator
for the three role commands, RenameRole additionally demanding the target
role's weight be strictly below the caller's. -/
def specRequiredPerm (room : Room) (role : Role) : CmdType → Prop
  | .GetRoom | .LeaveRoom => True
  | .Search _ | .AddToQueue _ => role.permissions.can_add_song = true
  | .SetVolume _ | .PlayResume | .Pause | .SkipNext | .SkipPrevious
  | .SeekToPos _ => role.permissions.can_use_controls = true
  | .Kick _ _ | .Ban _ _ => role.permissions.can_manage_users = true
  | .CreateRole _ _ | .DeleteRole _ =>
      role.permissions.can_manage_users = true ∧
        role.permissions.can_add_moderator = true
  | .RenameRole rid _ =>
      role.permissions.can_manage_users = true ∧
        role.permissions.can_add_moderator = true ∧
        ∃ i target, rid = some i ∧
          room.role_manager.get_role_by_id i = some target ∧
          target.weight < role.weight

theorem hasPerm_iff_spec (m : RoomManager) (room_id : Nat) (user_id : String)
    (cmd_type : CmdType) (room : Room) (user : RoomUser) (role : Role)
    (hroom : m.get_room room_id = some room)
    (huser : room.users.find? (fun u => u.id == user_id) = some user)
    (hrole : room.role_manager.get_role_by_id user.role_id = some role)
    (hrename : ∀ rid name, cmd_type = .RenameRole rid name →
      ∃ i target, rid = some i ∧ room.role_manager.get_role_by_id i = some target) :
    (Command.has_permission_to m room_id user_id cmd_type = true) ↔
      specRequiredPerm room role cmd_type := by
  unfold Command.has_permission_to
  simp only [hroom, huser, hrole]
  cases cmd_type with
  | RenameRole rid name =>
    obtain ⟨i, target, hi, htarget⟩ := hrename rid name rfl
    subst hi
    simp only [htarget, specRequiredPerm, Bool.and_eq_true, Bool.not_eq_true',
      decide_eq_false_iff_not, Nat.not_le, Option.some.injEq]
    constructor
    · rintro ⟨hlt, hmu, hmod⟩
      exact ⟨hmu, hmod, i, target, rfl, htarget, hlt⟩
    · rintro ⟨hmu, hmod, i', target', hi', htarget', hlt⟩
      subst hi'
      rw [htarget] at htarget'
      cases htarget'
      exact ⟨hlt, hmu, hmod⟩
  | GetRoom => simp [specRequiredPerm]
  | LeaveRoom => simp [specRequiredPerm]
  | Search q => simp [specRequiredPerm]
  | AddToQueue t => simp [specRequiredPerm]
  | SetVolume p => simp [specRequiredPerm]
  | PlayResume => simp [specRequiredPerm]
  | Pause => simp [specRequiredPerm]
  | SkipNext => simp [specRequiredPerm]
  | SkipPrevious => simp [specRequiredPerm]
  | SeekToPos p => simp [specRequiredPerm]
  | Kick u r => simp [specRequiredPerm]
  | Ban u r => simp [specRequiredPerm]
  | CreateRole n p => simp [specRequiredPerm]
  | DeleteRole i => simp [specRequiredPerm]

theorem process_impact_of_permitted (m : RoomManager) (room_id : Nat)
    (user_id : String) (provider : Except SpotifyError (List String))
    (cmd_type : CmdType)
    (hperm : Command.has_permission_to m room_id user_id cmd_type = true) :
    (Command.process m room_id user_id provider cmd_type).2.1 =
      Command.impactOf cmd_type := by
  unfold Command.process
  rw [if_neg (by simp [hperm])]
  cases cmd_type <;> (repeat' split) <;> rfl

/-- C4: for a caller that resolves inside the room (room found, caller a
member, the member's role in the table, and — for RenameRole — the target
role id parsing and resolving), `Command::process` returns
`Err(Unauthorized)` with impact `Nothing` and leaves the registry untouched
EXACTLY when the caller lacks the required permission of the claim's table:
none for GetRoom/LeaveRoom, add-song for Search/AddToQueue, use-controls for
SetVolume/PlayResume/Pause/SkipNext/SkipPrevious/SeekToPos, manage-users for
Kick/Ban, manage-users AND add-moderator for CreateRole/RenameRole/DeleteRole,
and for RenameRole additionally the target role's weight strictly below the
caller's (equal weights are denied). -/
theorem process_unauthorized_iff (m : RoomManager) (room_id : Nat)
    (user_id : String) (provider : Except SpotifyError (List String))
    (cmd_type : CmdType) (room : Room) (user : RoomUser) (role : Role)
    (hroom : m.get_room room_id = some room)
    (huser : room.users.find? (fun u => u.id == user_id) = some user)
    (hrole : room.role_manager.get_role_by_id user.role_id = some role)
    (hrename : ∀ rid name, cmd_type = .RenameRole rid name →
      ∃ i target, rid = some i ∧ room.role_manager.get_role_by_id i = some target) :
    (Command.process m room_id user_id provider cmd_type =
        (.error (.RoomErr .Unauthorized), .Nothing, m)) ↔
      ¬ specRequiredPerm room role cmd_type := by
  rw [← hasPerm_iff_spec m room_id user_id cmd_type room user role hroom huser hrole hrename]
  constructor
  · intro heq hperm
    have himp := process_impact_of_permitted m room_id user_id provider cmd_type hperm
    rw [heq] at himp
    cases cmd_type with
    | GetRoom =>
      unfold Command.process at heq
      rw [if_neg (by simp [hperm])] at heq
      simp [hroom] at heq
    | Search q =>
      unfold Command.process at heq
      rw [if_neg (by simp [hperm])] at heq
      rcases provider with e | tracks <;> simp [hroom] at heq
    | LeaveRoom => simp [Command.impactOf] at himp
    | AddToQueue t => simp [Command.impactOf] at himp
    | SetVolume p => simp [Command.impactOf] at himp
    | PlayResume => simp [Command.impactOf] at himp
    | Pause => simp [Command.impactOf] at himp
    | SkipNext => simp [Command.impactOf] at himp
    | SkipPrevious => simp [Command.impactOf] at himp
    | SeekToPos p => simp [Command.impactOf] at himp
    | Kick u r => simp [Command.impactOf] at himp
    | Ban u r => simp [Command.impactOf] at himp
    | CreateRole n p => simp [Command.impactOf] at himp
    | RenameRole i n => simp [Command.impactOf] at himp
    | DeleteRole i => simp [Command.impactOf] at himp
  · intro hperm
    have hfalse : Command.has_permission_to m room_id user_id cmd_type = false := by
      cases hpt : Command.has_permission_to m room_id user_id cmd_type with
      | true => exact absurd hpt hperm
      | false => rfl
    unfold Command.process
    rw [if_pos (by simp [hfalse])]

def roleC4 : Role :=
  ⟨7, "Guest", ⟨false, false, false, false, false⟩⟩

def roomC4 : Room :=
  { id := 1
    name := "r"
    password := "p"
    users := [⟨"u1", "alice", 7, false⟩]
    banned_users := []
    role_manager := ⟨[roleC4]⟩
    tracks_queue := []
    max_users := MAX_USERS
    logs := []
    inactive_for := none }

def mC4 : RoomManager :=
  ⟨[(1, roomC4)], ["u1"], 10⟩

/-- C4 witness: a Guest (no permissions) issuing Pause is rejected with
`Unauthorized`, impact `Nothing`, untouched registry — and the theorem's iff
holds at this concrete instance. -/
theorem process_unauthorized_iff_witness :
    (Command.process mC4 1 "u1" (.ok []) .Pause =
        (.error (.RoomErr .Unauthorized), .Nothing, mC4)) ↔
      ¬ specRequiredPerm roomC4 roleC4 .Pause :=
  process_unauthorized_iff mC4 1 "u1" (.ok []) .Pause roomC4
    ⟨"u1", "alice", 7, false⟩ roleC4 (by decide) (by decide) (by decide)
    (fun rid name h => nomatch h)

/-! ## C6 — identifier codec -/

theorem parseHexDigit_toHexDigit : ∀ n < 16, parseHexDigit (toHexDigit n) = some n := by
  decide

theorem toHexDigit_ne_colon : ∀ n < 16, toHexDigit n ≠ ':' := by
  decide

theorem decodeChunk_hexChunk (p : Char × Char) :
    decodeChunk (hexChunk p) =
      some (Char.ofNat (p.1.toNat % 256), Char.ofNat (p.2.toNat % 256)) := by
  have h1 : p.1.toNat % 256 < 256 := Nat.mod_lt _ (by omega)
  have h2 : p.2.toNat % 256 < 256 := Nat.mod_lt _ (by omega)
  unfold hexChunk hexByte decodeChunk
  simp only [List.cons_append, List.nil_append]
  rw [parseHexDigit_toHexDigit _ (by omega), parseHexDigit_toHexDigit _ (by omega),
    parseHexDigit_toHexDigit _ (by omega), parseHexDigit_toHexDigit _ (by omega)]
  simp only [Option.bind_eq_bind, Option.some_bind, Nat.div_add_mod]
  rfl

theorem decodeChunk_hexChunk_ascii (p : Char × Char)
    (h1 : p.1.toNat < 256) (h2 : p.2.toNat < 256) :
    decodeChunk (hexChunk p) = some p := by
  rw [decodeChunk_hexChunk, Nat.mod_eq_of_lt h1, Nat.mod_eq_of_lt h2,
    Char.ofNat_toNat, Char.ofNat_toNat]

theorem colon_notin_hexChunk (p : Char × Char) : ':' ∉ hexChunk p := by
  have h1 : p.1.toNat % 256 < 256 := Nat.mod_lt _ (by omega)
  have h2 : p.2.toNat % 256 < 256 := Nat.mod_lt _ (by omega)
  unfold hexChunk hexByte
  intro hmem
  simp only [List.cons_append, List.nil_append, List.mem_cons,
    List.not_mem_nil, or_false] at hmem
  rcases hmem with h | h | h | h <;>
    exact toHexDigit_ne_colon _ (by omega) h.symm

theorem splitColon_nocolon (c : List Char) (hc : ':' ∉ c) : splitColon c = [c] := by
  induction c with
  | nil => rfl
  | cons x xs ih =>
    have hx : ¬ x = ':' := fun h => hc (h ▸ List.mem_cons_self x xs)
    unfold splitColon
    rw [if_neg hx, ih (fun h => hc (List.mem_cons_of_mem x h))]

theorem splitColon_append (c t : List Char) (hc : ':' ∉ c) :
    splitColon (c ++ ':' :: t) = c :: splitColon t := by
  induction c with
  | nil =>
    simp [splitColon]
  | cons x xs ih =>
    have hx : ¬ x = ':' := fun h => hc (h ▸ List.mem_cons_self x xs)
    have ih2 := ih (fun h => hc (List.mem_cons_of_mem x h))
    simp only [List.cons_append, splitColon, if_neg hx, List.append_eq, ih2]

theorem splitColon_joinColon (cs : List (List Char)) (hne : cs ≠ [])
    (h : ∀ c ∈ cs, ':' ∉ c) : splitColon (joinColon cs) = cs := by
  induction cs with
  | nil => cases hne rfl
  | cons c cs ih =>
    cases cs with
    | nil =>
      unfold joinColon
      exact splitColon_nocolon c (h c (List.mem_cons_self _ _))
    | cons c' cs' =>
      unfold joinColon
      rw [splitColon_append c _ (h c (List.mem_cons_self _ _))]
      rw [ih (by simp) (fun d hd => h d (List.mem_cons_of_mem c hd))]

theorem mapM_decodeChunk_hexChunks (ps : List (Char × Char))
    (h : ∀ p ∈ ps, p.1.toNat < 256 ∧ p.2.toNat < 256) :
    (ps.map hexChunk).mapM decodeChunk = some ps := by
  induction ps with
  | nil => rfl
  | cons p ps ih =>
    have hp := h p (List.mem_cons_self p ps)
    have hps := ih (fun q hq => h q (List.mem_cons_of_mem p hq))
    simp only [List.map_cons, List.mapM_cons, decodeChunk_hexChunk_ascii p hp.1 hp.2,
      hps, Option.bind_eq_bind, Option.some_bind, Option.pure_def]

theorem flat_chunkPairs : ∀ s : List Char,
    (chunkPairs s).flatMap (fun p => [p.1, p.2]) =
      s ++ (if s.length % 2 == 1 then ['0'] else [])
  | [] => by simp [chunkPairs]
  | [a] => by simp [chunkPairs]
  | a :: b :: rest => by
    have ih := flat_chunkPairs rest
    simp only [chunkPairs, List.flatMap_cons, ih, List.length_cons]
    have hmod : (rest.length + 1 + 1) % 2 = rest.length % 2 := by omega
    simp [hmod]

theorem chunkPairs_mem : ∀ (s : List Char) (p : Char × Char), p ∈ chunkPairs s →
    (p.1 ∈ s ∨ p.1 = '0') ∧ (p.2 ∈ s ∨ p.2 = '0')
  | [], p, hp => nomatch hp
  | [a], p, hp => by
    simp only [chunkPairs, List.mem_singleton] at hp
    subst hp
    exact ⟨.inl (List.mem_singleton_self a), .inr rfl⟩
  | a :: b :: rest, p, hp => by
    simp only [chunkPairs, List.mem_cons] at hp
    rcases hp with hp | hp
    · subst hp
      exact ⟨.inl (by simp), .inl (by simp)⟩
    · have := chunkPairs_mem rest p hp
      exact ⟨this.1.imp_left (fun h => by simp [h]),
        this.2.imp_left (fun h => by simp [h])⟩

theorem rustPairs_mem (s : List Char) (p : Char × Char) (hp : p ∈ rustPairs s) :
    (p.1 ∈ s ∨ p.1 = '0') ∧ (p.2 ∈ s ∨ p.2 = '0') := by
  unfold rustPairs at hp
  rcases List.mem_append.1 hp with h | h
  · exact chunkPairs_mem s p h
  · split at h
    · simp only [List.mem_singleton] at h
      subst h
      exact ⟨.inr rfl, .inr rfl⟩
    · cases h

theorem chunkPairs_ne_nil (s : List Char) (h : s ≠ []) : chunkPairs s ≠ [] := by
  cases s with
  | nil => cases h rfl
  | cons a rest =>
    cases rest with
    | nil => simp [chunkPairs]
    | cons b rest => simp [chunkPairs]

theorem rustPairs_ne_nil (s : List Char) (h : s ≠ []) : rustPairs s ≠ [] := by
  unfold rustPairs
  intro hcon
  exact chunkPairs_ne_nil s h (List.append_eq_nil.1 hcon).1

theorem filterMap_authorized (ps : List (Char × Char))
    (h : ∀ p ∈ ps, authorizedByte p.1 && authorizedByte p.2) :
    ps.filterMap (fun p =>
        if authorizedByte p.1 && authorizedByte p.2 then some (hexChunk p) else none) =
      ps.map hexChunk := by
  induction ps with
  | nil => rfl
  | cons p ps ih =>
    rw [List.filterMap_cons, List.map_cons, if_pos (h p (List.mem_cons_self p ps)),
      ih (fun q hq => h q (List.mem_cons_of_mem p hq))]

/-- The pair list whose hex image is the padded chunk vector. -/
def padPairs (ps : List (Char × Char)) (uuid_len : Nat) : List (Char × Char) :=
  ps ++ (List.range (uuid_len - ps.length)).map
    (fun k => ps.getD (k % ps.length) ('0', '0'))

theorem padChunks_map (ps : List (Char × Char)) (n : Nat) (h : ps ≠ []) :
    padChunks (ps.map hexChunk) n = (padPairs ps n).map hexChunk := by
  unfold padChunks padPairs
  rw [List.map_append, List.length_map, List.map_map]
  congr 1
  apply List.map_congr_left
  intro k hk
  have hlen : 0 < ps.length := List.length_pos.2 h
  have hi : k % ps.length < ps.length := Nat.mod_lt _ hlen
  simp only [Function.comp]
  rw [List.getD_eq_getElem?_getD, List.getD_eq_getElem?_getD, List.getElem?_map,
    List.getElem?_eq_getElem hi]
  rfl

theorem mem_padPairs (ps : List (Char × Char)) (n : Nat) (h : ps ≠ [])
    (p : Char × Char) (hp : p ∈ padPairs ps n) : p ∈ ps := by
  unfold padPairs at hp
  rcases List.mem_append.1 hp with hm | hm
  · exact hm
  · rcases List.mem_map.1 hm with ⟨k, hk, hke⟩
    have hlen : 0 < ps.length := List.length_pos.2 h
    have hi : k % ps.length < ps.length := Nat.mod_lt _ hlen
    rw [List.getD_eq_getElem?_getD, List.getElem?_eq_getElem hi] at hke
    exact hke ▸ List.getElem_mem hi

theorem padPairs_ne_nil (ps : List (Char × Char)) (n : Nat) (h : ps ≠ []) :
    padPairs ps n ≠ [] := by
  unfold padPairs
  intro hcon
  exact h (List.append_eq_nil.1 hcon).1

theorem flatMap_padPairs (ps : List (Char × Char)) (n : Nat) :
    (padPairs ps n).flatMap (fun p => [p.1, p.2]) =
      ps.flatMap (fun p => [p.1, p.2]) ++
        ((List.range (n - ps.length)).map
          (fun k => ps.getD (k % ps.length) ('0', '0'))).flatMap
          (fun p => [p.1, p.2]) := by
  unfold padPairs
  rw [List.flatMap_append]

theorem dropWhile_eq_self_of_none {p : Char → Bool} (l : List Char)
    (h : ∀ c ∈ l, p c = false) : l.dropWhile p = l := by
  cases l with
  | nil => rfl
  | cons x xs =>
    rw [List.dropWhile_cons, h x (List.mem_cons_self x xs)]
    simp

theorem trimChars_eq_self (s : List Char)
    (h : ∀ c ∈ s, Char.isWhitespace c = false) : trimChars s = s := by
  unfold trimChars
  rw [dropWhile_eq_self_of_none s h,
    dropWhile_eq_self_of_none s.reverse (fun c hc => h c (List.mem_reverse.1 hc)),
    List.reverse_reverse]

theorem char_not_ws (c : Char) (h : MIN_EMAIL_CHAR ≤ c) :
    Char.isWhitespace c = false := by
  by_contra hw
  simp only [Bool.not_eq_false, Char.isWhitespace, Bool.or_eq_true,
    decide_eq_true_eq] at hw
  rcases hw with ((hc | hc) | hc) | hc <;> (subst hc; exact absurd h (by decide))

theorem char_toNat_lt_256 (c : Char) (h : c < MAX_EMAIL_CHAR) : c.toNat < 256 := by
  have hv : c.val < MAX_EMAIL_CHAR.val := h
  have : c.val.toNat < MAX_EMAIL_CHAR.val.toNat := hv
  have hz : MAX_EMAIL_CHAR.val.toNat = 122 := by decide
  unfold Char.toNat
  omega

/-- C6 (amended): for every NONEMPTY string s whose characters all lie in the
HALF-OPEN range [MIN_EMAIL_CHAR = '-', MAX_EMAIL_CHAR = 'z') — the upper
bound itself is excluded, since `get_authorized_bytes` builds the exclusive
range `MIN_EMAIL_CHAR..MAX_EMAIL_CHAR` — and every L ≥ ⌈|s|/2⌉, decoding the
encoding round-trips on the prefix: `decode_user_email (encode_user_email s
L)` succeeds and its first |s| characters equal s. -/
theorem codec_roundtrip_amended (s : List Char) (L : Nat)
    (hne : s ≠ [])
    (hchars : ∀ c ∈ s, MIN_EMAIL_CHAR ≤ c ∧ c < MAX_EMAIL_CHAR)
    (_hL : (s.length + 1) / 2 ≤ L) :
    ∃ t, decode_user_email (encode_user_email s L) = some t ∧
      t.take s.length = s := by
  have hpairs_ne := rustPairs_ne_nil s hne
  have hauth : ∀ p ∈ rustPairs s, (authorizedByte p.1 && authorizedByte p.2) = true := by
    intro p hp
    obtain ⟨h1, h2⟩ := rustPairs_mem s p hp
    have a1 : authorizedByte p.1 = true := by
      rcases h1 with h | h
      · obtain ⟨hmin, hmax⟩ := hchars _ h
        simp [authorizedByte, hmin, hmax]
      · simp [authorizedByte, h]
    have a2 : authorizedByte p.2 = true := by
      rcases h2 with h | h
      · obtain ⟨hmin, hmax⟩ := hchars _ h
        simp [authorizedByte, hmin, hmax]
      · simp [authorizedByte, h]
    simp [a1, a2]
  have hhex : hexValues s = (rustPairs s).map hexChunk :=
    filterMap_authorized _ hauth
  have hhex_ne : ¬ (hexValues s).isEmpty = true := by
    rw [hhex]
    simp only [List.isEmpty_eq_true, List.map_eq_nil_iff]
    exact hpairs_ne
  have htrim : trimChars s = s :=
    trimChars_eq_self s (fun c hc => char_not_ws c (hchars c hc).1)
  have henc : encode_user_email s L =
      joinColon ((padPairs (rustPairs s) L).map hexChunk) := by
    unfold encode_user_email
    rw [htrim, if_neg hne, if_neg hhex_ne, hhex, padChunks_map _ _ hpairs_ne]
  have hsmall : ∀ p ∈ padPairs (rustPairs s) L, p.1.toNat < 256 ∧ p.2.toNat < 256 := by
    intro p hp
    have hmem := mem_padPairs _ _ hpairs_ne p hp
    obtain ⟨h1, h2⟩ := rustPairs_mem s p hmem
    constructor
    · rcases h1 with h | h
      · exact char_toNat_lt_256 _ (hchars _ h).2
      · rw [h]; decide
    · rcases h2 with h | h
      · exact char_toNat_lt_256 _ (hchars _ h).2
      · rw [h]; decide
  have hsplit : splitColon (joinColon ((padPairs (rustPairs s) L).map hexChunk)) =
      (padPairs (rustPairs s) L).map hexChunk := by
    refine splitColon_joinColon _ ?_ ?_
    · simp only [ne_eq, List.map_eq_nil_iff]
      exact padPairs_ne_nil _ _ hpairs_ne
    · intro c hc
      rcases List.mem_map.1 hc with ⟨p, hp, hpe⟩
      exact hpe ▸ colon_notin_hexChunk p
  have hdec : decode_user_email (encode_user_email s L) =
      some ((padPairs (rustPairs s) L).flatMap (fun p => [p.1, p.2])) := by
    rw [henc]
    unfold decode_user_email
    rw [hsplit, mapM_decodeChunk_hexChunks _ hsmall]
    rfl
  refine ⟨_, hdec, ?_⟩
  rw [flatMap_padPairs]
  unfold rustPairs
  rw [List.flatMap_append, flat_chunkPairs, List.append_assoc, List.append_assoc]
  exact List.take_left s _

/-- C6 counterexample: the input "z" satisfies the claim's hypotheses — its
only character lies in the INCLUSIVE range [MIN_EMAIL_CHAR, MAX_EMAIL_CHAR]
and L = 1 ≥ ⌈1/2⌉ — yet the round-trip fails: `get_authorized_bytes` builds
the half-open range `'-'..'z'`, so the pair ('z','0') is skipped, the
encoding is empty, and decoding it panics (models as `none`) instead of
returning a string whose first character is 'z'. -/
theorem codec_roundtrip_cex :
    (MIN_EMAIL_CHAR ≤ 'z' ∧ 'z' ≤ MAX_EMAIL_CHAR ∧ (1 + 1) / 2 ≤ 1) ∧
      (decode_user_email (encode_user_email ['z'] 1)).map (List.take 1) ≠
        some ['z'] := by
  decide

/-- C6 witness: the amended theorem applied at s = "ab", L = 1. -/
theorem codec_roundtrip_amended_witness :
    ∃ t, decode_user_email (encode_user_email ['a', 'b'] 1) = some t ∧
      t.take 2 = ['a', 'b'] :=
  codec_roundtrip_amended ['a', 'b'] 1 (by decide)
    (by
      intro c hc
      simp only [List.mem_cons, List.not_mem_nil, or_false, List.mem_singleton] at hc
      rcases hc with h | h <;> (subst h; exact (by decide))) (by decide)
